import Mathlib

/-
Verification of the websocket backend of the `web` repository:
a shallow embedding in Lean 4 of `backend/websocket/websocket_manager.py`,
the websocket endpoint and command handler of `backend/app/main.py`, and
`ROS2WebBridge.switch_map_topic` of `backend/ros_bridge/ros_interface.py`,
together with theorems about rate limiting, subscription routing, failure
isolation, NaN/Infinity normalization, teardown idempotence and the map
source switch.
-/

namespace WebBackend

/-- Connections are identified abstractly; the Python objects compare by
identity, which we model as natural-number ids. -/
abbrev Conn := Nat

/-- A Python float as far as `safe_json_dumps` distinguishes them:
not-a-number, the two infinities, or a finite value (modelled as a
rational). -/
inductive PFloat
  | nan
  | inf
  | ninf
  | finite (q : ℚ)
deriving DecidableEq, Repr

/-- A JSON-like Python value: the payloads handed to `safe_json_dumps`.
Dicts are association lists of string keys, mirroring the dict/list/float
cases the Python function inspects; every other value falls in the
catch-all constructors. -/
inductive PValue
  | vnull
  | vbool (b : Bool)
  | vstr (s : String)
  | vint (n : Int)
  | vfloat (f : PFloat)
  | vlist (xs : List PValue)
  | vdict (kvs : List (String × PValue))

/-- The float branch of `convert_nan_inf` (websocket_manager.py lines
20-26): NaN becomes 0, +Infinity becomes 1000.0, -Infinity becomes
-1000.0, finite floats are unchanged. -/
def convertFloat : PFloat → PFloat
  | .nan => .finite 0
  | .inf => .finite 1000
  | .ninf => .finite (-1000)
  | .finite q => .finite q

mutual

/-- `convert_nan_inf` of `safe_json_dumps` (websocket_manager.py lines
15-28): recurse through dicts and lists, normalize floats, leave
everything else alone. -/
def convert_nan_inf : PValue → PValue
  | .vdict kvs => .vdict (convertPairs kvs)
  | .vlist xs => .vlist (convertList xs)
  | .vfloat f => .vfloat (convertFloat f)
  | .vnull => .vnull
  | .vbool b => .vbool b
  | .vstr s => .vstr s
  | .vint n => .vint n

/-- The list comprehension of `convert_nan_inf` over a list payload. -/
def convertList : List PValue → List PValue
  | [] => []
  | x :: xs => convert_nan_inf x :: convertList xs

/-- The dict comprehension of `convert_nan_inf` over a dict payload:
keys unchanged, values converted. -/
def convertPairs : List (String × PValue) → List (String × PValue)
  | [] => []
  | (k, v) :: kvs => (k, convert_nan_inf v) :: convertPairs kvs

end

/-- A float is representable on the wire (json.dumps emits valid JSON for
it, so the result decodes without error) iff it is finite. -/
def PFloat.wireSafe : PFloat → Bool
  | .finite _ => true
  | _ => false

mutual

/-- Every float occurring anywhere in the value is finite, so `json.dumps`
produces strict JSON that any decoder accepts. -/
def wireSafe : PValue → Bool
  | .vdict kvs => wireSafePairs kvs
  | .vlist xs => wireSafeList xs
  | .vfloat f => f.wireSafe
  | .vnull => true
  | .vbool _ => true
  | .vstr _ => true
  | .vint _ => true

/-- `wireSafe` over the elements of a list. -/
def wireSafeList : List PValue → Bool
  | [] => true
  | x :: xs => wireSafe x && wireSafeList xs

/-- `wireSafe` over the values of a dict. -/
def wireSafePairs : List (String × PValue) → Bool
  | [] => true
  | (_, v) :: kvs => wireSafe v && wireSafePairs kvs

end

mutual

/-- The normalized value is wire-safe: no NaN or Infinity survives
`convert_nan_inf`. -/
theorem wireSafe_convert (v : PValue) : wireSafe (convert_nan_inf v) = true :=
  match v with
  | .vdict kvs => by
      simpa [convert_nan_inf, wireSafe] using wireSafePairs_convert kvs
  | .vlist xs => by
      simpa [convert_nan_inf, wireSafe] using wireSafeList_convert xs
  | .vfloat f => by cases f <;> simp [convert_nan_inf, convertFloat, wireSafe, PFloat.wireSafe]
  | .vnull => rfl
  | .vbool _ => rfl
  | .vstr _ => rfl
  | .vint _ => rfl

/-- List form of `wireSafe_convert`. -/
theorem wireSafeList_convert (xs : List PValue) : wireSafeList (convertList xs) = true :=
  match xs with
  | [] => rfl
  | x :: xs => by
      simp [convertList, wireSafeList, wireSafe_convert x, wireSafeList_convert xs]

/-- Dict form of `wireSafe_convert`. -/
theorem wireSafePairs_convert (kvs : List (String × PValue)) :
    wireSafePairs (convertPairs kvs) = true :=
  match kvs with
  | [] => rfl
  | (k, v) :: kvs => by
      simp [convertPairs, wireSafePairs, wireSafe_convert v, wireSafePairs_convert kvs]

end

end WebBackend

/-- C4: the wire encoder normalizes every payload value recursively —
NaN to 0, +Infinity to the finite sentinel 1000.0, -Infinity to -1000.0,
finite floats unchanged — and the encoded result is wire-safe (all floats
finite), so decoding never errors. -/
theorem C4_nan_inf_normalization :
    (∀ v : WebBackend.PValue, WebBackend.wireSafe (WebBackend.convert_nan_inf v) = true) ∧
    WebBackend.convertFloat .nan = .finite 0 ∧
    WebBackend.convertFloat .inf = .finite 1000 ∧
    WebBackend.convertFloat .ninf = .finite (-1000) ∧
    (∀ q : ℚ, WebBackend.convertFloat (.finite q) = .finite q) :=
  ⟨WebBackend.wireSafe_convert, rfl, rfl, rfl, fun _ => rfl⟩

namespace WebBackend

/-- Lookup in an association list, modelling Python `dict.get`: the value
of the first binding of the key, if any. -/
def lookupA {κ α : Type} [DecidableEq κ] (k : κ) : List (κ × α) → Option α
  | [] => none
  | (k', v) :: rest => if k = k' then some v else lookupA k rest

/-- Update in an association list, modelling Python `d[k] = v`: replace
the first binding in place, or append a new one. -/
def updAssoc {κ α : Type} [DecidableEq κ] (k : κ) (v : α) : List (κ × α) → List (κ × α)
  | [] => [(k, v)]
  | (k', v') :: rest => if k = k' then (k, v) :: rest else (k', v') :: updAssoc k v rest

/-- Deletion from an association list, modelling Python `del d[k]`:
remove the first binding of the key. -/
def delAssoc {κ α : Type} [DecidableEq κ] (k : κ) : List (κ × α) → List (κ × α)
  | [] => []
  | (k', v') :: rest => if k = k' then rest else (k', v') :: delAssoc k rest

/-- The observable state of `WebSocketManager`: the active connection
list, the per-connection subscription sets (as lists of channel names),
and the per-channel last broadcast times (`last_broadcast_time`). -/
@[ext]
structure ManagerState where
  active_connections : List Conn
  client_subscriptions : List (Conn × List String)
  last_broadcast_time : List (String × ℚ)
deriving DecidableEq, Repr

/-- The `min_broadcast_interval` dict of the manager constructor
(websocket_manager.py lines 47-57), seconds as rationals. -/
def min_broadcast_interval : List (String × ℚ) :=
  [("pose", 1/10), ("odom", 1/10), ("scan", 1/5), ("battery", 1),
   ("map", 5), ("diagnostics", 2), ("log", 1/10), ("ultrasonic", 1/10),
   ("node_status", 2)]

/-- `self.min_broadcast_interval.get(data_type, 0.1)`. -/
def minIntervalOf (data_type : String) : ℚ :=
  (lookupA data_type min_broadcast_interval).getD (1/10)

/-- `self.last_broadcast_time.get(data_type, 0)`. -/
def lastTimeOf (s : ManagerState) (data_type : String) : ℚ :=
  (lookupA data_type s.last_broadcast_time).getD 0

/-- An outbound data message as built by `broadcast` (lines 121-126):
a `type` tag, the channel name, the payload and the send time. -/
structure Message where
  type : String
  data_type : String
  data : PValue
  timestamp : ℚ

/-- `disconnect` (lines 77-85): remove the websocket from the active
list if present, and drop its subscription entry if present. Both
branches are guarded by membership tests, so a second call on the same
connection finds nothing to do and raises no error. -/
def disconnect (s : ManagerState) (c : Conn) : ManagerState :=
  { active_connections :=
      if c ∈ s.active_connections then s.active_connections.erase c
      else s.active_connections,
    client_subscriptions :=
      if (lookupA c s.client_subscriptions).isSome then delAssoc c s.client_subscriptions
      else s.client_subscriptions,
    last_broadcast_time := s.last_broadcast_time }

/-- `send_personal_message` (lines 99-105) as it affects manager state:
the send either succeeds (per the `fails` oracle) or raises, in which
case the except branch disconnects the target. -/
def send_personal_message (fails : Conn → Bool) (s : ManagerState) (c : Conn) : ManagerState :=
  if fails c then disconnect s c else s

/-- `connect` (lines 61-75): append the accepted websocket, give it an
empty subscription set, and send the welcome message. -/
def connect (fails : Conn → Bool) (s : ManagerState) (c : Conn) : ManagerState :=
  let s1 : ManagerState :=
    { s with active_connections := s.active_connections ++ [c],
             client_subscriptions := updAssoc c [] s.client_subscriptions }
  send_personal_message fails s1 c

/-- Python `set.update(topics)`: add each topic not already present. -/
def setUpdate (subs : List String) (topics : List String) : List String :=
  topics.foldl (fun acc t => if t ∈ acc then acc else acc ++ [t]) subs

/-- `subscribe` (lines 146-160): create an empty subscription set for an
unknown websocket, union in the requested topics, and send the
acknowledgement. -/
def subscribe (fails : Conn → Bool) (s : ManagerState) (c : Conn) (topics : List String) :
    ManagerState :=
  let base : ManagerState :=
    if (lookupA c s.client_subscriptions).isSome then s
    else { s with client_subscriptions := updAssoc c [] s.client_subscriptions }
  let cur := (lookupA c base.client_subscriptions).getD []
  let s2 : ManagerState :=
    { base with client_subscriptions := updAssoc c (setUpdate cur topics) base.client_subscriptions }
  send_personal_message fails s2 c

/-- What one `broadcast` call produces: the state after the cleanup
loop, the successful deliveries `(connection, message)` in send order,
whether the rate gate let the pass happen (`emitted`), and how many
times `safe_json_dumps` ran. -/
structure BroadcastResult where
  state : ManagerState
  sent : List (Conn × Message)
  emitted : Bool
  encodeCount : Nat

/-- The eligibility test of the delivery loop (line 135): look up the
connection's subscriptions (`get(websocket, set())`); it receives the
channel when the set is empty or contains the channel
(`if not subscriptions or data_type in subscriptions`). -/
def eligibleFor (subs : List (Conn × List String)) (data_type : String) (c : Conn) : Bool :=
  ((lookupA c subs).getD []).isEmpty || ((lookupA c subs).getD []).contains data_type

/-- The delivery loop of `broadcast` (lines 128-140): for each active
connection check eligibility, and when eligible, encode the message
(`safe_json_dumps` runs here, inside the loop) and send; a raising send
puts the connection on the disconnected list and the loop continues.
Returns (deliveries, disconnected list, encode count). -/
def broadcastLoop (fails : Conn → Bool) (msg : Message) (data_type : String)
    (subs : List (Conn × List String)) :
    List Conn → List (Conn × Message) × List Conn × Nat
  | [] => ([], [], 0)
  | c :: rest =>
      let r := broadcastLoop fails msg data_type subs rest
      if eligibleFor subs data_type c then
        if fails c then (r.1, c :: r.2.1, r.2.2 + 1)
        else ((c, msg) :: r.1, r.2.1, r.2.2 + 1)
      else r

/-- `broadcast` (lines 107-144): consult the per-channel rate gate —
skip the whole pass when the channel was broadcast less than its minimum
interval ago — otherwise record the new broadcast time, build the data
message once as a value, run the delivery loop, and only after the loop
disconnect every connection whose send raised. -/
def broadcast (fails : Conn → Bool) (now : ℚ) (data_type : String) (data : PValue)
    (s : ManagerState) : BroadcastResult :=
  let last_time := lastTimeOf s data_type
  let min_interval := minIntervalOf data_type
  if now - last_time < min_interval then
    { state := s, sent := [], emitted := false, encodeCount := 0 }
  else
    let s1 : ManagerState :=
      { s with last_broadcast_time := updAssoc data_type now s.last_broadcast_time }
    let message : Message :=
      { type := "data", data_type := data_type, data := data, timestamp := now }
    let r := broadcastLoop fails message data_type s1.client_subscriptions s1.active_connections
    { state := r.2.1.foldl disconnect s1, sent := r.1, emitted := true, encodeCount := r.2.2 }

/-- A sequence of `broadcast` calls (samples arriving at the
broadcaster), each tagged with its wall-clock time, channel and payload.
Returns the final state, all deliveries, and the emission events
(time, channel) at which the rate gate passed. -/
def runBroadcasts (fails : Conn → Bool) :
    List (ℚ × String × PValue) → ManagerState →
    ManagerState × List (Conn × Message) × List (ℚ × String)
  | [], s => (s, [], [])
  | (now, dt, d) :: evs, s =>
      let r := broadcast fails now dt d s
      let rest := runBroadcasts fails evs r.state
      (rest.1, r.sent ++ rest.2.1, (if r.emitted then [(now, dt)] else []) ++ rest.2.2)

/-- The times at which a given channel was emitted during a run. -/
def emissionTimes (ch : String) (emits : List (ℚ × String)) : List ℚ :=
  (emits.filter (fun p => p.2 == ch)).map Prod.fst

/-- Active connections never grow under `disconnect`. -/
theorem disconnect_active_length_le (s : ManagerState) (c : Conn) :
    (disconnect s c).active_connections.length ≤ s.active_connections.length := by
  unfold disconnect
  dsimp only
  split
  · exact (List.erase_sublist _ _).length_le
  · exact le_rfl

/-- The loop of `broadcast_map` (websocket_manager.py lines 210-217):
Python iterates the live `active_connections` list by index while the
except branch may call `disconnect` mid-iteration, so the loop is
modelled with an explicit index over the mutating state. A connection is
sent the map message only when `"map"` is in its subscription set; an
empty subscription set is not eligible. Returns the final state and the
connections that received the message, in send order. -/
def broadcastMapLoop (fails : Conn → Bool) (i : Nat) (s : ManagerState) :
    ManagerState × List Conn :=
  if h : i < s.active_connections.length then
    let c := s.active_connections.getD i 0
    let subsc := (lookupA c s.client_subscriptions).getD []
    if subsc.contains "map" then
      if fails c then broadcastMapLoop fails (i + 1) (disconnect s c)
      else
        let r := broadcastMapLoop fails (i + 1) s
        (r.1, c :: r.2)
    else broadcastMapLoop fails (i + 1) s
  else (s, [])
termination_by s.active_connections.length - i
decreasing_by
  all_goals first
    | omega
    | (have hle := disconnect_active_length_le s (s.active_connections.getD i 0)
       omega)

/-- `broadcast_map` (lines 200-217): no rate gate; build the map data
message and send it only to connections that explicitly subscribed to
`"map"`, disconnecting a connection inside the loop when its send
raises. -/
def broadcast_map (fails : Conn → Bool) (now : ℚ) (data : PValue) (s : ManagerState) :
    ManagerState × List (Conn × Message) :=
  let message : Message :=
    { type := "data", data_type := "map", data := data, timestamp := now }
  let r := broadcastMapLoop fails 0 s
  (r.1, r.2.map (fun c => (c, message)))

/-- The state of `ROS2WebBridge` that `switch_map_topic` touches: the
map subscription handle (carrying its topic when present), the recorded
current topic, and the map source tag. -/
structure BridgeState where
  map_sub : Option String
  current_map_topic : String
  map_source : String
deriving DecidableEq, Repr

/-- A control-plane message sent to all websocket connections; the
switch path would use `broadcast_switch_state` for these. -/
structure ControlMsg where
  type : String
  switch_type : String
deriving DecidableEq, Repr

/-- `switch_map_topic` (ros_interface.py lines 584-610): inside one try
block, destroy the current subscription when present, create the new
one, record the new topic, and update `map_source` for the known topics;
any exception (modelled by the `destroyRaises`/`createRaises` oracles)
is caught and logged, after which the function simply returns. Returns
the new bridge state and the control-plane messages broadcast by the
call. -/
def switch_map_topic (destroyRaises createRaises : Bool) (new_topic : String)
    (s : BridgeState) : BridgeState × List ControlMsg :=
  if s.map_sub.isSome && destroyRaises then (s, [])
  else
    let s1 : BridgeState := { s with map_sub := none }
    if createRaises then (s1, [])
    else
      let s2 : BridgeState :=
        { s1 with map_sub := some new_topic, current_map_topic := new_topic }
      let s3 : BridgeState :=
        { s2 with map_source :=
            if new_topic = "/map" then "static_map"
            else if new_topic = "/map_dynamic" ∨ new_topic = "/map_enhanced" then "dynamic_map"
            else s2.map_source }
      (s3, [])

/-- An inbound client message as the websocket endpoint of
app/main.py reads it: the `type` and `command` fields (absent fields are
`none`, mirroring `dict.get`) and the `topics` list (default `[]`). -/
structure ClientMsg where
  type : Option String
  command : Option String
  topics : List String
deriving DecidableEq, Repr

/-- A reply sent back to the requesting connection. -/
inductive Reply
  | commandResult (command : Option String) (status : String)
  | errorMsg (message : String)
  | subscriptionAck (status : String) (topics : List String)
  | pong (timestamp : ℚ)
deriving DecidableEq, Repr

/-- A call made on the ROS bridge by the command handler. -/
inductive BridgeCall
  | publish_cmd_vel (lx ly az : ℚ)
  | publish_navigation_goal (x y w : ℚ)
  | publish_initial_pose (x y w : ℚ)
deriving DecidableEq, Repr

/-- `handle_websocket_command` (main.py lines 333-391): with no bridge,
reply with an error; otherwise dispatch on the `command` string —
`move`, `navigate` and `set_initial_pose` each make one bridge call with
`params.get(..., default)` arguments, any other command matches no
branch — and finally reply `command_result`/`success`; an exception from
a bridge call (the `pubRaises` oracle) is caught by the outer handler,
which replies with an error instead. Returns (bridge calls, replies). -/
def handle_websocket_command (bridgeAvailable pubRaises : Bool) (msg : ClientMsg)
    (params : List (String × ℚ)) : List BridgeCall × List Reply :=
  if !bridgeAvailable then ([], [.errorMsg "ROS2 bridge not available"])
  else if msg.command = some "move" then
    let lx := (lookupA "linear_x" params).getD 0
    let ly := (lookupA "linear_y" params).getD 0
    let az := (lookupA "angular_z" params).getD 0
    if pubRaises then ([], [.errorMsg "publish failed"])
    else ([.publish_cmd_vel lx ly az], [.commandResult msg.command "success"])
  else if msg.command = some "navigate" then
    let x := (lookupA "x" params).getD 0
    let y := (lookupA "y" params).getD 0
    let w := (lookupA "orientation_w" params).getD 1
    if pubRaises then ([], [.errorMsg "publish failed"])
    else ([.publish_navigation_goal x y w], [.commandResult msg.command "success"])
  else if msg.command = some "set_initial_pose" then
    let x := (lookupA "x" params).getD 0
    let y := (lookupA "y" params).getD 0
    let w := (lookupA "orientation_w" params).getD 1
    if pubRaises then ([], [.errorMsg "publish failed"])
    else ([.publish_initial_pose x y w], [.commandResult msg.command "success"])
  else ([], [.commandResult msg.command "success"])

/-- The message dispatch of `websocket_endpoint` (main.py lines
304-326): `command` goes to the command handler, `subscribe` and
`unsubscribe` go to the manager (which acknowledges); any other `type` —
including `ping` — matches no branch and produces nothing. -/
def websocket_endpoint_handle (bridgeAvailable pubRaises : Bool) (msg : ClientMsg)
    (params : List (String × ℚ)) : List BridgeCall × List Reply :=
  if msg.type = some "command" then handle_websocket_command bridgeAvailable pubRaises msg params
  else if msg.type = some "subscribe" then ([], [.subscriptionAck "subscribed" msg.topics])
  else if msg.type = some "unsubscribe" then ([], [.subscriptionAck "unsubscribed" msg.topics])
  else ([], [])

/-- A key with no binding is untouched by `delAssoc`. -/
theorem delAssoc_of_lookupA_none {κ α : Type} [DecidableEq κ] {k : κ}
    {m : List (κ × α)} (h : lookupA k m = none) : delAssoc k m = m := by
  induction m with
  | nil => rfl
  | cons p rest ih =>
      obtain ⟨k', v'⟩ := p
      by_cases hk : k = k'
      · simp [lookupA, hk] at h
      · simp [lookupA, hk] at h
        simp [delAssoc, hk, ih h]

/-- A key absent from the key column is not found by `lookupA`. -/
theorem lookupA_eq_none_of_not_mem {κ α : Type} [DecidableEq κ] {k : κ}
    {m : List (κ × α)} (h : k ∉ m.map Prod.fst) : lookupA k m = none := by
  induction m with
  | nil => rfl
  | cons p rest ih =>
      obtain ⟨k', v'⟩ := p
      simp only [List.map_cons, List.mem_cons, not_or] at h
      simp [lookupA, h.1, ih h.2]

/-- After deleting the only binding of a key, lookup finds nothing. -/
theorem lookupA_delAssoc_self {κ α : Type} [DecidableEq κ] {k : κ}
    {m : List (κ × α)} (h : (m.map Prod.fst).count k ≤ 1) :
    lookupA k (delAssoc k m) = none := by
  induction m with
  | nil => rfl
  | cons p rest ih =>
      obtain ⟨k', v'⟩ := p
      by_cases hk : k = k'
      · subst hk
        simp only [delAssoc, if_pos rfl]
        have hcount : (rest.map Prod.fst).count k = 0 := by
          simp [List.count_cons] at h
          omega
        exact lookupA_eq_none_of_not_mem (by simpa [List.count_eq_zero] using hcount)
      · have hrest : (rest.map Prod.fst).count k ≤ 1 := by
          simp [List.count_cons, hk] at h ⊢
          omega
        simp [delAssoc, hk, lookupA, ih hrest]

/-- The active list after `disconnect` is always `erase` of the old one:
the membership guard only skips an erase that would be a no-op. -/
theorem disconnect_active (s : ManagerState) (c : Conn) :
    (disconnect s c).active_connections = s.active_connections.erase c := by
  unfold disconnect
  dsimp only
  split
  · rfl
  · exact (List.erase_of_not_mem (by assumption)).symm

/-- The subscription registry after `disconnect` is always `delAssoc` of
the old one: the guard only skips a deletion that would be a no-op. -/
theorem disconnect_subs (s : ManagerState) (c : Conn) :
    (disconnect s c).client_subscriptions = delAssoc c s.client_subscriptions := by
  unfold disconnect
  dsimp only
  split
  · rfl
  · rename_i h
    have h2 : lookupA c s.client_subscriptions = none := by
      cases hx : lookupA c s.client_subscriptions with
      | none => rfl
      | some v => exact absurd (by simp [hx]) h
    exact (delAssoc_of_lookupA_none h2).symm

/-- `disconnect` leaves the rate-limit table alone. -/
theorem disconnect_last (s : ManagerState) (c : Conn) :
    (disconnect s c).last_broadcast_time = s.last_broadcast_time := rfl

end WebBackend

/-- C9: connection teardown is idempotent. For a manager state in which
the connection occurs at most once in the active list and at most once
as a subscription key (as maintained by `connect`), calling `disconnect`
twice yields exactly the state of calling it once; the second call is a
guarded no-op and raises no error (the model is a total function). -/
theorem C9_disconnect_idempotent (s : WebBackend.ManagerState) (c : WebBackend.Conn)
    (h1 : s.active_connections.count c ≤ 1)
    (h2 : (s.client_subscriptions.map Prod.fst).count c ≤ 1) :
    WebBackend.disconnect (WebBackend.disconnect s c) c = WebBackend.disconnect s c := by
  ext1
  · simp only [WebBackend.disconnect_active]
    apply List.erase_of_not_mem
    have := List.count_erase_self c s.active_connections
    have hzero : (s.active_connections.erase c).count c = 0 := by omega
    exact List.count_eq_zero.mp hzero
  · simp only [WebBackend.disconnect_subs]
    exact WebBackend.delAssoc_of_lookupA_none (WebBackend.lookupA_delAssoc_self h2)
  · rfl

/-- Witness for C9 at a concrete two-connection state. -/
theorem C9_disconnect_idempotent_witness :
    (([1, 2] : List WebBackend.Conn).count 1 ≤ 1) ∧
    ((([(1, ["pose"]), (2, [])] : List (WebBackend.Conn × List String)).map Prod.fst).count 1 ≤ 1) ∧
    WebBackend.disconnect
      (WebBackend.disconnect ⟨[1, 2], [(1, ["pose"]), (2, [])], [("pose", 5)]⟩ 1) 1 =
      WebBackend.disconnect ⟨[1, 2], [(1, ["pose"]), (2, [])], [("pose", 5)]⟩ 1 :=
  ⟨by decide, by decide,
    C9_disconnect_idempotent ⟨[1, 2], [(1, ["pose"]), (2, [])], [("pose", 5)]⟩ 1
      (by decide) (by decide)⟩

/-- C10: an inbound command whose name is none of `move`, `navigate`,
`set_initial_pose` (for example `stop`) matches no dispatch branch, so
the handler makes no bridge call, yet falls through to the final success
reply `command_result`/`success` rather than an error. -/
theorem C10_unknown_command_success (pubRaises : Bool) (k tp : String)
    (topics : List String) (params : List (String × ℚ))
    (hk1 : k ≠ "move") (hk2 : k ≠ "navigate") (hk3 : k ≠ "set_initial_pose") :
    WebBackend.handle_websocket_command true pubRaises ⟨some tp, some k, topics⟩ params =
      ([], [.commandResult (some k) "success"]) := by
  simp [WebBackend.handle_websocket_command, hk1, hk2, hk3]

/-- Witness for C10 at the concrete unknown command `stop`. -/
theorem C10_unknown_command_success_witness :
    ("stop" ≠ "move" ∧ "stop" ≠ "navigate" ∧ "stop" ≠ "set_initial_pose") ∧
    WebBackend.handle_websocket_command true false ⟨some "command", some "stop", []⟩ [] =
      ([], [.commandResult (some "stop") "success"]) :=
  ⟨⟨by decide, by decide, by decide⟩,
    C10_unknown_command_success false "stop" "command" [] []
      (by decide) (by decide) (by decide)⟩

/-- C7: evaluating the websocket endpoint of app/main.py at the inbound
message with type `ping` shows the code sends no reply at all — the
dispatch has branches only for `command`, `subscribe` and `unsubscribe`
— whereas the spec requires a `pong` keepalive reply (as the
main_minimal, main_noetic, main_standalone and terminal endpoints all
implement). -/
theorem C7_ping_no_reply :
    WebBackend.websocket_endpoint_handle true false ⟨some "ping", none, []⟩ [] = ([], []) :=
  rfl

/-- C6 counterexample: on a failed switch (re-subscription to
`/map_dynamic` raises, starting from the static map on `/map`) the
number of control-plane messages broadcast by `switch_map_topic` is not
one — nothing is broadcast, the failure is only logged. -/
theorem C6_counterexample :
    ((WebBackend.switch_map_topic false true "/map_dynamic"
        ⟨some "/map", "/map", "static_map"⟩).2).length ≠ 1 := by
  decide

/-- C6 amended: if switching the map source fails, the Switch State
values (`current_map_topic` and `map_source`) after the call equal their
values before the call — when destroying the old subscription raises the
whole state is untouched; when creating the new one raises only the
subscription handle is lost — but no rollback message is broadcast: the
exception is caught and logged and the message list is empty. -/
theorem C6_switch_rollback_amended (cr : Bool) (nt : String) (s : WebBackend.BridgeState) :
    ((WebBackend.switch_map_topic false true nt s).1.current_map_topic = s.current_map_topic ∧
      (WebBackend.switch_map_topic false true nt s).1.map_source = s.map_source ∧
      (WebBackend.switch_map_topic false true nt s).2 = []) ∧
    (s.map_sub.isSome = true →
      (WebBackend.switch_map_topic true cr nt s).1 = s ∧
      (WebBackend.switch_map_topic true cr nt s).2 = []) := by
  constructor
  · simp [WebBackend.switch_map_topic]
  · intro h
    simp [WebBackend.switch_map_topic, h]

/-- Witness for C6 at a concrete bridge state with a live subscription. -/
theorem C6_switch_rollback_amended_witness :
    ((WebBackend.switch_map_topic false true "/map_dynamic"
        ⟨some "/map", "/map", "static_map"⟩).1.current_map_topic = "/map" ∧
      (WebBackend.switch_map_topic false true "/map_dynamic"
        ⟨some "/map", "/map", "static_map"⟩).1.map_source = "static_map" ∧
      (WebBackend.switch_map_topic false true "/map_dynamic"
        ⟨some "/map", "/map", "static_map"⟩).2 = []) ∧
    ((WebBackend.BridgeState.mk (some "/map") "/map" "static_map").map_sub.isSome = true ∧
      (WebBackend.switch_map_topic true true "/map_dynamic"
        ⟨some "/map", "/map", "static_map"⟩).1 = ⟨some "/map", "/map", "static_map"⟩ ∧
      (WebBackend.switch_map_topic true true "/map_dynamic"
        ⟨some "/map", "/map", "static_map"⟩).2 = []) := by
  refine ⟨(C6_switch_rollback_amended true "/map_dynamic" _).1, by decide, ?_⟩
  exact (C6_switch_rollback_amended true "/map_dynamic"
    ⟨some "/map", "/map", "static_map"⟩).2 (by decide)

namespace WebBackend

/-- Every delivery of the loop carries the one prepared message, and
only eligible connections receive it. -/
theorem broadcastLoop_sent_inv (fails : Conn → Bool) (msg : Message) (data_type : String)
    (subs : List (Conn × List String)) (conns : List Conn) (c : Conn) (m : Message)
    (h : (c, m) ∈ (broadcastLoop fails msg data_type subs conns).1) :
    m = msg ∧ eligibleFor subs data_type c = true := by
  induction conns with
  | nil => simp [broadcastLoop] at h
  | cons c0 rest ih =>
      rw [broadcastLoop] at h
      by_cases he : eligibleFor subs data_type c0
      · rw [if_pos he] at h
        by_cases hf : fails c0
        · rw [if_pos hf] at h
          exact ih h
        · rw [if_neg hf] at h
          rcases List.mem_cons.mp h with h1 | h1
          · rw [Prod.mk.injEq] at h1
            obtain ⟨hc, hm⟩ := h1
            subst hc
            subst hm
            exact ⟨rfl, he⟩
          · exact ih h1
      · rw [if_neg he] at h
        exact ih h

/-- An eligible connection whose send does not raise receives the
message, whatever happens to the other connections. -/
theorem broadcastLoop_mem_sent (fails : Conn → Bool) (msg : Message) (data_type : String)
    (subs : List (Conn × List String)) (conns : List Conn) (b : Conn)
    (hb : b ∈ conns) (helig : eligibleFor subs data_type b = true)
    (hok : fails b = false) :
    (b, msg) ∈ (broadcastLoop fails msg data_type subs conns).1 := by
  induction conns with
  | nil => simp at hb
  | cons c0 rest ih =>
      rw [broadcastLoop]
      rcases List.mem_cons.mp hb with h1 | h1
      · subst h1
        rw [if_pos helig, if_neg (by simp [hok])]
        exact List.mem_cons_self _ _
      · by_cases he : eligibleFor subs data_type c0
        · rw [if_pos he]
          by_cases hf : fails c0
          · rw [if_pos hf]
            exact ih h1
          · rw [if_neg hf]
            exact List.mem_cons_of_mem _ (ih h1)
        · rw [if_neg he]
          exact ih h1

/-- An eligible connection whose send raises lands on the disconnected
list collected by the loop. -/
theorem broadcastLoop_mem_disc (fails : Conn → Bool) (msg : Message) (data_type : String)
    (subs : List (Conn × List String)) (conns : List Conn) (a : Conn)
    (ha : a ∈ conns) (helig : eligibleFor subs data_type a = true)
    (hfail : fails a = true) :
    a ∈ (broadcastLoop fails msg data_type subs conns).2.1 := by
  induction conns with
  | nil => simp at ha
  | cons c0 rest ih =>
      rw [broadcastLoop]
      rcases List.mem_cons.mp ha with h1 | h1
      · subst h1
        rw [if_pos helig, if_pos hfail]
        exact List.mem_cons_self _ _
      · by_cases he : eligibleFor subs data_type c0
        · rw [if_pos he]
          by_cases hf : fails c0
          · rw [if_pos hf]
            exact List.mem_cons_of_mem _ (ih h1)
          · rw [if_neg hf]
            exact ih h1
        · rw [if_neg he]
          exact ih h1

/-- The loop encodes the message exactly once per eligible connection. -/
theorem broadcastLoop_encodeCount (fails : Conn → Bool) (msg : Message) (data_type : String)
    (subs : List (Conn × List String)) (conns : List Conn) :
    (broadcastLoop fails msg data_type subs conns).2.2 =
      (conns.filter (eligibleFor subs data_type)).length := by
  induction conns with
  | nil => rfl
  | cons c0 rest ih =>
      rw [broadcastLoop]
      by_cases he : eligibleFor subs data_type c0
      · rw [if_pos he]
        by_cases hf : fails c0
        · rw [if_pos hf]
          simp [List.filter_cons, he, ih]
        · rw [if_neg hf]
          simp [List.filter_cons, he, ih]
      · rw [if_neg he]
        simp [List.filter_cons, he, ih]

/-- Once gone from the active list, a connection never reappears under
further disconnect cleanups. -/
theorem notMem_foldl_disconnect (discs : List Conn) (s : ManagerState) (a : Conn)
    (h : a ∉ s.active_connections) :
    a ∉ (discs.foldl disconnect s).active_connections := by
  induction discs generalizing s with
  | nil => simpa using h
  | cons d rest ih =>
      rw [List.foldl_cons]
      apply ih
      rw [disconnect_active]
      intro hmem
      exact h (List.mem_of_mem_erase hmem)

/-- Disconnecting every collected connection removes a connection that
occurs at most once in the active list. -/
theorem mem_foldl_disconnect_removed (discs : List Conn) (s : ManagerState) (a : Conn)
    (ha : a ∈ discs) (hcount : s.active_connections.count a ≤ 1) :
    a ∉ (discs.foldl disconnect s).active_connections := by
  induction discs generalizing s with
  | nil => simp at ha
  | cons d rest ih =>
      rw [List.foldl_cons]
      by_cases hd : d = a
      · subst hd
        apply notMem_foldl_disconnect
        rw [disconnect_active]
        have := List.count_erase_self d s.active_connections
        have hzero : (s.active_connections.erase d).count d = 0 := by omega
        exact List.count_eq_zero.mp hzero
      · rcases List.mem_cons.mp ha with h1 | h1
        · exact absurd h1.symm hd
        · refine ih (disconnect s d) h1 ?_
          rw [disconnect_active, List.count_erase_of_ne (fun hne => hd hne.symm)]
          exact hcount

end WebBackend

namespace WebBackend

/-- `broadcast` when the rate gate blocks the pass: nothing happens. -/
theorem broadcast_skip (fails : Conn → Bool) (now : ℚ) (dt : String) (d : PValue)
    (s : ManagerState) (h : now - lastTimeOf s dt < minIntervalOf dt) :
    broadcast fails now dt d s =
      { state := s, sent := [], emitted := false, encodeCount := 0 } := by
  simp only [broadcast, if_pos h]

/-- `broadcast` when the rate gate passes: the new time is recorded, the
message is built once as a value, the delivery loop runs on the
unchanged connection and subscription lists, and the cleanup fold runs
after the loop. -/
theorem broadcast_emit (fails : Conn → Bool) (now : ℚ) (dt : String) (d : PValue)
    (s : ManagerState) (h : ¬ (now - lastTimeOf s dt < minIntervalOf dt)) :
    broadcast fails now dt d s =
      { state :=
          (broadcastLoop fails ⟨"data", dt, d, now⟩ dt s.client_subscriptions
              s.active_connections).2.1.foldl disconnect
            { s with last_broadcast_time := updAssoc dt now s.last_broadcast_time },
        sent := (broadcastLoop fails ⟨"data", dt, d, now⟩ dt s.client_subscriptions
            s.active_connections).1,
        emitted := true,
        encodeCount := (broadcastLoop fails ⟨"data", dt, d, now⟩ dt s.client_subscriptions
            s.active_connections).2.2 } := by
  simp only [broadcast, if_neg h]

end WebBackend

/-- C3: failure isolation in a broadcast pass. When the gate passes, an
eligible connection b whose send does not raise receives the data
message even though another eligible connection a raises; a is only
collected during the iteration and is removed from the active list by
the cleanup that runs after the iteration. The model of the loop is a
total function: the per-connection try/except means no exception
escapes. -/
theorem C3_failure_isolation (fails : WebBackend.Conn → Bool) (now : ℚ) (dt : String)
    (d : WebBackend.PValue) (s : WebBackend.ManagerState) (a b : WebBackend.Conn)
    (hgate : ¬ (now - WebBackend.lastTimeOf s dt < WebBackend.minIntervalOf dt))
    (hb : b ∈ s.active_connections)
    (hbelig : WebBackend.eligibleFor s.client_subscriptions dt b = true)
    (hbok : fails b = false)
    (ha : a ∈ s.active_connections)
    (haelig : WebBackend.eligibleFor s.client_subscriptions dt a = true)
    (hafail : fails a = true)
    (hacount : s.active_connections.count a ≤ 1) :
    (b, ⟨"data", dt, d, now⟩) ∈ (WebBackend.broadcast fails now dt d s).sent ∧
      a ∉ (WebBackend.broadcast fails now dt d s).state.active_connections := by
  rw [WebBackend.broadcast_emit fails now dt d s hgate]
  constructor
  · exact WebBackend.broadcastLoop_mem_sent fails _ dt s.client_subscriptions
      s.active_connections b hb hbelig hbok
  · exact WebBackend.mem_foldl_disconnect_removed _ _ a
      (WebBackend.broadcastLoop_mem_disc fails _ dt s.client_subscriptions
        s.active_connections a ha haelig hafail) hacount

/-- Witness for C3: two empty-subscription connections, connection 1
raising on send; connection 2 still gets the pose sample and 1 is gone
afterwards. -/
theorem C3_failure_isolation_witness :
    (¬ ((1000 : ℚ) - WebBackend.lastTimeOf ⟨[1, 2], [(1, []), (2, [])], []⟩ "pose" <
        WebBackend.minIntervalOf "pose") ∧
      2 ∈ ([1, 2] : List WebBackend.Conn) ∧
      WebBackend.eligibleFor [(1, []), (2, [])] "pose" 2 = true ∧
      (fun c : WebBackend.Conn => c == 1) 2 = false ∧
      1 ∈ ([1, 2] : List WebBackend.Conn) ∧
      WebBackend.eligibleFor [(1, []), (2, [])] "pose" 1 = true ∧
      (fun c : WebBackend.Conn => c == 1) 1 = true ∧
      ([1, 2] : List WebBackend.Conn).count 1 ≤ 1) ∧
    ((2, ⟨"data", "pose", .vnull, 1000⟩) ∈
        (WebBackend.broadcast (fun c => c == 1) 1000 "pose" .vnull
          ⟨[1, 2], [(1, []), (2, [])], []⟩).sent ∧
      1 ∉ (WebBackend.broadcast (fun c => c == 1) 1000 "pose" .vnull
          ⟨[1, 2], [(1, []), (2, [])], []⟩).state.active_connections) :=
  ⟨⟨by norm_num [WebBackend.lastTimeOf, WebBackend.minIntervalOf,
      WebBackend.min_broadcast_interval, WebBackend.lookupA],
    by decide, by decide, by decide, by decide, by decide, by decide, by decide⟩,
    C3_failure_isolation (fun c => c == 1) 1000 "pose" .vnull
      ⟨[1, 2], [(1, []), (2, [])], []⟩ 1 2
      (by norm_num [WebBackend.lastTimeOf, WebBackend.minIntervalOf,
        WebBackend.min_broadcast_interval, WebBackend.lookupA])
      (by decide) (by decide) (by decide)
      (by decide) (by decide) (by decide) (by decide)⟩

/-- C5 counterexample: with two eligible connections in one pass the
payload is encoded twice, not once — `safe_json_dumps` runs inside the
per-connection loop of `broadcast`. -/
theorem C5_counterexample :
    (WebBackend.broadcast (fun _ => false) 1000 "pose" .vnull
        ⟨[1, 2], [(1, []), (2, [])], []⟩).encodeCount ≠ 1 := by
  rw [WebBackend.broadcast_emit _ _ _ _ _
    (by norm_num [WebBackend.lastTimeOf, WebBackend.minIntervalOf,
      WebBackend.min_broadcast_interval, WebBackend.lookupA])]
  decide

/-- C5 amended: in one gate-passing broadcast pass the payload is
serialized once per eligible recipient (the encode count equals the
number of eligible connections), not once per pass; the message value
being encoded is the same for every recipient, so all recipients receive
an encoding of the identical message. -/
theorem C5_encode_per_recipient (fails : WebBackend.Conn → Bool) (now : ℚ) (dt : String)
    (d : WebBackend.PValue) (s : WebBackend.ManagerState)
    (hgate : ¬ (now - WebBackend.lastTimeOf s dt < WebBackend.minIntervalOf dt)) :
    (WebBackend.broadcast fails now dt d s).encodeCount =
      (s.active_connections.filter
        (WebBackend.eligibleFor s.client_subscriptions dt)).length ∧
    ∀ p ∈ (WebBackend.broadcast fails now dt d s).sent,
      (p : WebBackend.Conn × WebBackend.Message).2 = ⟨"data", dt, d, now⟩ := by
  rw [WebBackend.broadcast_emit fails now dt d s hgate]
  constructor
  · exact WebBackend.broadcastLoop_encodeCount fails _ dt s.client_subscriptions
      s.active_connections
  · intro p hp
    obtain ⟨pc, pm⟩ := p
    exact (WebBackend.broadcastLoop_sent_inv fails _ dt s.client_subscriptions
      s.active_connections pc pm hp).1

/-- Witness for C5 at the two-connection state of the counterexample. -/
theorem C5_encode_per_recipient_witness :
    (¬ ((1000 : ℚ) - WebBackend.lastTimeOf ⟨[1, 2], [(1, []), (2, [])], []⟩ "pose" <
        WebBackend.minIntervalOf "pose")) ∧
    ((WebBackend.broadcast (fun _ => false) 1000 "pose" .vnull
        ⟨[1, 2], [(1, []), (2, [])], []⟩).encodeCount =
      (([1, 2] : List WebBackend.Conn).filter
        (WebBackend.eligibleFor [(1, []), (2, [])] "pose")).length ∧
    ∀ p ∈ (WebBackend.broadcast (fun _ => false) 1000 "pose" .vnull
        ⟨[1, 2], [(1, []), (2, [])], []⟩).sent,
      (p : WebBackend.Conn × WebBackend.Message).2 = ⟨"data", "pose", .vnull, 1000⟩) :=
  ⟨by norm_num [WebBackend.lastTimeOf, WebBackend.minIntervalOf,
      WebBackend.min_broadcast_interval, WebBackend.lookupA],
    C5_encode_per_recipient (fun _ => false) 1000 "pose" .vnull
      ⟨[1, 2], [(1, []), (2, [])], []⟩
      (by norm_num [WebBackend.lastTimeOf, WebBackend.minIntervalOf,
        WebBackend.min_broadcast_interval, WebBackend.lookupA])⟩

namespace WebBackend

/-- A successful lookup exhibits a binding in the list. -/
theorem lookupA_mem {κ α : Type} [DecidableEq κ] {k : κ} {v : α} :
    ∀ {m : List (κ × α)}, lookupA k m = some v → (k, v) ∈ m := by
  intro m
  induction m with
  | nil => intro h; simp [lookupA] at h
  | cons p rest ih =>
      intro h
      obtain ⟨k', v'⟩ := p
      by_cases hk : k = k'
      · subst hk
        rw [lookupA, if_pos rfl] at h
        cases h
        exact List.mem_cons_self _ _
      · rw [lookupA, if_neg hk] at h
        exact List.mem_cons_of_mem _ (ih h)

/-- Deleting a binding yields a sublist of the original registry. -/
theorem delAssoc_sublist {κ α : Type} [DecidableEq κ] (k : κ) :
    ∀ (m : List (κ × α)), List.Sublist (delAssoc k m) m := by
  intro m
  induction m with
  | nil => exact List.Sublist.refl _
  | cons p rest ih =>
      obtain ⟨k', v'⟩ := p
      by_cases hk : k = k'
      · rw [delAssoc, if_pos hk]
        exact (List.Sublist.refl _).cons _
      · rw [delAssoc, if_neg hk]
        exact ih.cons₂ _

/-- `disconnect` only shrinks the subscription registry. -/
theorem disconnect_subs_sublist (s : ManagerState) (c : Conn) :
    List.Sublist (disconnect s c).client_subscriptions s.client_subscriptions := by
  rw [disconnect_subs]
  exact delAssoc_sublist c _

/-- Anyone the map loop delivers to has an explicit `"map"`
subscription binding in the starting registry — even though the loop
may disconnect connections mid-iteration. Proved by induction on the
remaining iteration budget. -/
theorem broadcastMapLoop_mem_aux (fails : Conn → Bool) :
    ∀ (n i : Nat) (s : ManagerState), s.active_connections.length - i ≤ n →
      ∀ c, c ∈ (broadcastMapLoop fails i s).2 →
        ∃ l, (c, l) ∈ s.client_subscriptions ∧ "map" ∈ l := by
  intro n
  induction n with
  | zero =>
      intro i s hn c hc
      unfold broadcastMapLoop at hc
      rw [dif_neg (by omega)] at hc
      simp at hc
  | succ n ih =>
      intro i s hn c hc
      unfold broadcastMapLoop at hc
      by_cases hi : i < s.active_connections.length
      · rw [dif_pos hi] at hc
        dsimp only at hc
        by_cases hm : ((lookupA (s.active_connections.getD i 0)
            s.client_subscriptions).getD []).contains "map"
        · rw [if_pos hm] at hc
          by_cases hf : fails (s.active_connections.getD i 0)
          · rw [if_pos hf] at hc
            obtain ⟨l, hl, hml⟩ := ih (i + 1) (disconnect s (s.active_connections.getD i 0))
              (by
                have hle := disconnect_active_length_le s (s.active_connections.getD i 0)
                omega) c hc
            exact ⟨l, (disconnect_subs_sublist s _).subset hl, hml⟩
          · rw [if_neg hf] at hc
            rcases List.mem_cons.mp hc with h1 | h1
            · subst h1
              cases hx : lookupA (s.active_connections.getD i 0) s.client_subscriptions with
              | none => rw [hx] at hm; simp at hm
              | some l =>
                  rw [hx] at hm
                  refine ⟨l, lookupA_mem hx, ?_⟩
                  simpa using hm
            · exact ih (i + 1) s (by omega) c h1
        · rw [if_neg hm] at hc
          exact ih (i + 1) s (by omega) c hc
      · rw [dif_neg hi] at hc
        simp at hc

/-- Wrapper of `broadcastMapLoop_mem_aux` for the full loop. -/
theorem broadcastMapLoop_mem (fails : Conn → Bool) (s : ManagerState) (c : Conn)
    (hc : c ∈ (broadcastMapLoop fails 0 s).2) :
    ∃ l, (c, l) ∈ s.client_subscriptions ∧ "map" ∈ l :=
  broadcastMapLoop_mem_aux fails s.active_connections.length 0 s (by omega) c hc

end WebBackend

/-- C2 counterexample: a connection whose subscription set is empty does
not receive the map channel delivered via `broadcast_map` — at a state
with the single connection 1 holding the empty subscription set, the
map broadcast delivers to nobody, contradicting the claim that an
empty-subscription connection receives every channel. -/
theorem C2_counterexample :
    WebBackend.lookupA 1 ([(1, [])] : List (WebBackend.Conn × List String)) = some [] ∧
    1 ∈ ([1] : List WebBackend.Conn) ∧
    (WebBackend.broadcast_map (fun _ => false) 1000 .vnull ⟨[1], [(1, [])], []⟩).2 = [] := by
  refine ⟨by decide, by decide, ?_⟩
  have h1 : WebBackend.broadcastMapLoop (fun _ => false) 1 ⟨[1], [(1, [])], []⟩ =
      (⟨[1], [(1, [])], []⟩, []) := by
    unfold WebBackend.broadcastMapLoop
    simp
  have h0 : WebBackend.broadcastMapLoop (fun _ => false) 0 ⟨[1], [(1, [])], []⟩ =
      (⟨[1], [(1, [])], []⟩, []) := by
    unfold WebBackend.broadcastMapLoop
    simp [WebBackend.lookupA, h1]
  simp [WebBackend.broadcast_map, h0]

/-- C2 amended: subscription isolation as the code implements it. A
connection subscribed exactly to `battery` never receives a `pose` data
message from `broadcast`; a connection with an empty subscription set
receives every channel that `broadcast` emits (when its send does not
raise); but the map channel sent through `broadcast_map` goes only to
connections whose subscription set contains `"map"`, so an
empty-subscription connection receives nothing from it. -/
theorem C2_subscription_isolation_amended (fails : WebBackend.Conn → Bool) (now : ℚ)
    (d : WebBackend.PValue) (s : WebBackend.ManagerState) (c : WebBackend.Conn) :
    (WebBackend.lookupA c s.client_subscriptions = some ["battery"] →
      ∀ m, (c, m) ∈ (WebBackend.broadcast fails now "pose" d s).sent → False) ∧
    (∀ ch, WebBackend.lookupA c s.client_subscriptions = some [] →
      c ∈ s.active_connections → fails c = false →
      ¬ (now - WebBackend.lastTimeOf s ch < WebBackend.minIntervalOf ch) →
      (c, ⟨"data", ch, d, now⟩) ∈ (WebBackend.broadcast fails now ch d s).sent) ∧
    ((∀ l, (c, l) ∈ s.client_subscriptions → "map" ∉ l) →
      ∀ m, (c, m) ∈ (WebBackend.broadcast_map fails now d s).2 → False) := by
  refine ⟨?_, ?_, ?_⟩
  · intro hsub m hm
    by_cases hgate : now - WebBackend.lastTimeOf s "pose" < WebBackend.minIntervalOf "pose"
    · rw [WebBackend.broadcast_skip fails now "pose" d s hgate] at hm
      simp at hm
    · rw [WebBackend.broadcast_emit fails now "pose" d s hgate] at hm
      have helig := (WebBackend.broadcastLoop_sent_inv fails _ "pose"
        s.client_subscriptions s.active_connections c m hm).2
      rw [WebBackend.eligibleFor, hsub] at helig
      simp at helig
  · intro ch hsub hmem hok hgate
    rw [WebBackend.broadcast_emit fails now ch d s hgate]
    apply WebBackend.broadcastLoop_mem_sent fails _ ch s.client_subscriptions
      s.active_connections c hmem _ hok
    rw [WebBackend.eligibleFor, hsub]
    simp
  · intro hnomap m hm
    rw [WebBackend.broadcast_map] at hm
    dsimp only at hm
    rw [List.mem_map] at hm
    obtain ⟨c', hc', heq⟩ := hm
    have hcc : c' = c := congrArg Prod.fst heq
    subst hcc
    obtain ⟨l, hl, hml⟩ := WebBackend.broadcastMapLoop_mem fails s c' hc'
    exact hnomap l hl hml

/-- Witness for C2 at concrete states: a battery-only connection gets no
pose message, an empty-subscription connection gets the pose message,
and an empty-subscription connection gets nothing from the map path. -/
theorem C2_subscription_isolation_amended_witness :
    (WebBackend.lookupA 1 ([(1, ["battery"])] : List (WebBackend.Conn × List String)) =
        some ["battery"] ∧
      ∀ m, (1, m) ∈ (WebBackend.broadcast (fun _ => false) 1000 "pose" .vnull
        ⟨[1], [(1, ["battery"])], []⟩).sent → False) ∧
    (WebBackend.lookupA 1 ([(1, [])] : List (WebBackend.Conn × List String)) = some [] ∧
      (1, ⟨"data", "pose", .vnull, 1000⟩) ∈ (WebBackend.broadcast (fun _ => false) 1000 "pose"
        .vnull ⟨[1], [(1, [])], []⟩).sent) ∧
    ((∀ l, (1, l) ∈ ([(1, [])] : List (WebBackend.Conn × List String)) → "map" ∉ l) ∧
      ∀ m, (1, m) ∈ (WebBackend.broadcast_map (fun _ => false) 1000 .vnull
        ⟨[1], [(1, [])], []⟩).2 → False) := by
  have hnomap : ∀ l : List String, (1, l) ∈ ([(1, [])] : List (WebBackend.Conn × List String)) →
      "map" ∉ l := by
    intro l hl
    rw [List.mem_singleton, Prod.mk.injEq] at hl
    rw [hl.2]
    exact List.not_mem_nil _
  refine ⟨⟨by decide, ?_⟩, ⟨by decide, ?_⟩, ⟨hnomap, ?_⟩⟩
  · exact (C2_subscription_isolation_amended (fun _ => false) 1000 .vnull
      ⟨[1], [(1, ["battery"])], []⟩ 1).1 (by decide)
  · exact (C2_subscription_isolation_amended (fun _ => false) 1000 .vnull
      ⟨[1], [(1, [])], []⟩ 1).2.1 "pose" (by decide) (by decide) (by decide)
      (by norm_num [WebBackend.lastTimeOf, WebBackend.minIntervalOf,
        WebBackend.min_broadcast_interval, WebBackend.lookupA])
  · exact (C2_subscription_isolation_amended (fun _ => false) 1000 .vnull
      ⟨[1], [(1, [])], []⟩ 1).2.2 hnomap

namespace WebBackend

/-- Updating a key makes lookup return the new value. -/
theorem lookupA_updAssoc_self {κ α : Type} [DecidableEq κ] (k : κ) (v : α) :
    ∀ (m : List (κ × α)), lookupA k (updAssoc k v m) = some v := by
  intro m
  induction m with
  | nil => simp [updAssoc, lookupA]
  | cons p rest ih =>
      obtain ⟨k', v'⟩ := p
      by_cases hk : k = k'
      · rw [updAssoc, if_pos hk, lookupA, if_pos rfl]
      · rw [updAssoc, if_neg hk, lookupA, if_neg hk]
        exact ih

/-- Updating one key leaves lookups of other keys unchanged. -/
theorem lookupA_updAssoc_ne {κ α : Type} [DecidableEq κ] {j k : κ} (h : j ≠ k) (v : α) :
    ∀ (m : List (κ × α)), lookupA j (updAssoc k v m) = lookupA j m := by
  intro m
  induction m with
  | nil => simp [updAssoc, lookupA, h]
  | cons p rest ih =>
      obtain ⟨k', v'⟩ := p
      by_cases hk : k = k'
      · subst hk
        rw [updAssoc, if_pos rfl, lookupA, lookupA, if_neg h, if_neg h]
      · rw [updAssoc, if_neg hk, lookupA, lookupA]
        by_cases hj : j = k'
        · rw [if_pos hj, if_pos hj]
        · rw [if_neg hj, if_neg hj]
          exact ih

/-- The cleanup fold never touches the rate-limit table. -/
theorem foldl_disconnect_last (discs : List Conn) :
    ∀ (s : ManagerState),
      (discs.foldl disconnect s).last_broadcast_time = s.last_broadcast_time := by
  induction discs with
  | nil => intro s; rfl
  | cons d rest ih =>
      intro s
      rw [List.foldl_cons, ih, disconnect_last]

/-- Every configured minimum interval is nonnegative, as is the 0.1
default. -/
theorem minIntervalOf_nonneg (ch : String) : 0 ≤ minIntervalOf ch := by
  cases hx : lookupA ch min_broadcast_interval with
  | none => rw [minIntervalOf, hx]; norm_num
  | some v =>
      rw [minIntervalOf, hx]
      have hmem := lookupA_mem hx
      simp only [min_broadcast_interval, List.mem_cons, List.mem_singleton,
        Prod.mk.injEq, List.not_mem_nil, or_false] at hmem
      rcases hmem with h | h | h | h | h | h | h | h | h <;> rw [h.2] <;> norm_num

/-- Emission times of a cons of emission events. -/
theorem emissionTimes_cons (ch dt : String) (now : ℚ) (l : List (ℚ × String)) :
    emissionTimes ch ((now, dt) :: l) =
      if dt = ch then now :: emissionTimes ch l else emissionTimes ch l := by
  by_cases h : dt = ch
  · subst h
    simp [emissionTimes, List.filter_cons]
  · simp [emissionTimes, List.filter_cons, h]

/-- Emission times distribute over appending of event lists. -/
theorem emissionTimes_append (ch : String) (l1 l2 : List (ℚ × String)) :
    emissionTimes ch (l1 ++ l2) = emissionTimes ch l1 ++ emissionTimes ch l2 := by
  simp [emissionTimes, List.filter_append]

/-- The channel's recorded time after one `broadcast` call: unchanged on
a skipped pass or a pass of another channel, `now` when this channel
emits. -/
theorem broadcast_state_lastTimeOf (fails : Conn → Bool) (now : ℚ) (dt : String)
    (d : PValue) (s : ManagerState) (ch : String) :
    lastTimeOf (broadcast fails now dt d s).state ch =
      if now - lastTimeOf s dt < minIntervalOf dt then lastTimeOf s ch
      else if dt = ch then now else lastTimeOf s ch := by
  by_cases hgate : now - lastTimeOf s dt < minIntervalOf dt
  · rw [broadcast_skip fails now dt d s hgate, if_pos hgate]
  · rw [broadcast_emit fails now dt d s hgate, if_neg hgate]
    show lastTimeOf (List.foldl disconnect _ _) ch = _
    rw [lastTimeOf, foldl_disconnect_last]
    by_cases hch : dt = ch
    · subst hch
      rw [if_pos rfl]
      show (lookupA dt (updAssoc dt now s.last_broadcast_time)).getD 0 = now
      rw [lookupA_updAssoc_self]
      rfl
    · rw [if_neg hch]
      show (lookupA ch (updAssoc dt now s.last_broadcast_time)).getD 0 = lastTimeOf s ch
      rw [lookupA_updAssoc_ne (fun he => hch he.symm), lastTimeOf]

end WebBackend

namespace WebBackend

/-- The rate-limit invariant of `broadcast` over any run: every emission
of a channel happens at least one minimum interval after the recorded
last time at the start of the run, consecutive emissions of the channel
are at least the interval apart, and every delivered message of the
channel is delivered at one of the channel's emission times. -/
theorem runBroadcasts_spaced (fails : Conn → Bool) (ch : String) :
    ∀ (evs : List (ℚ × String × PValue)) (s : ManagerState),
      (∀ t ∈ emissionTimes ch (runBroadcasts fails evs s).2.2,
          lastTimeOf s ch + minIntervalOf ch ≤ t) ∧
      List.Chain' (fun a b => a + minIntervalOf ch ≤ b)
        (emissionTimes ch (runBroadcasts fails evs s).2.2) ∧
      (∀ p ∈ (runBroadcasts fails evs s).2.1,
        (p : Conn × Message).2.data_type = ch →
          (p : Conn × Message).2.timestamp ∈
            emissionTimes ch (runBroadcasts fails evs s).2.2) := by
  intro evs
  induction evs with
  | nil =>
      intro s
      refine ⟨?_, ?_, ?_⟩
      · intro t ht
        simp [runBroadcasts, emissionTimes] at ht
      · simp [runBroadcasts, emissionTimes]
      · intro p hp
        simp [runBroadcasts] at hp
  | cons ev evs ih =>
      intro s
      obtain ⟨now, dt, d⟩ := ev
      have hrun2 : (runBroadcasts fails ((now, dt, d) :: evs) s).2.2 =
          (if (broadcast fails now dt d s).emitted then [(now, dt)] else []) ++
            (runBroadcasts fails evs (broadcast fails now dt d s).state).2.2 := rfl
      have hrun1 : (runBroadcasts fails ((now, dt, d) :: evs) s).2.1 =
          (broadcast fails now dt d s).sent ++
            (runBroadcasts fails evs (broadcast fails now dt d s).state).2.1 := rfl
      obtain ⟨ih1, ih2, ih3⟩ := ih (broadcast fails now dt d s).state
      by_cases hgate : now - lastTimeOf s dt < minIntervalOf dt
      · have hb := broadcast_skip fails now dt d s hgate
        have hstate : (broadcast fails now dt d s).state = s := by rw [hb]
        have hemit : (broadcast fails now dt d s).emitted = false := by rw [hb]
        have hsent : (broadcast fails now dt d s).sent = [] := by rw [hb]
        rw [hstate] at ih1 ih2 ih3
        rw [hstate, hemit] at hrun2
        rw [hstate, hsent] at hrun1
        refine ⟨?_, ?_, ?_⟩
        · intro t ht
          rw [hrun2] at ht
          simp only [if_neg Bool.false_ne_true, List.nil_append] at ht
          exact ih1 t ht
        · rw [hrun2]
          simp only [if_neg Bool.false_ne_true, List.nil_append]
          exact ih2
        · intro p hp hdt
          rw [hrun1, List.nil_append] at hp
          rw [hrun2]
          simp only [if_neg Bool.false_ne_true, List.nil_append]
          exact ih3 p hp hdt
      · have hb := broadcast_emit fails now dt d s hgate
        have hemit : (broadcast fails now dt d s).emitted = true := by rw [hb]
        have hsent : ∀ p ∈ (broadcast fails now dt d s).sent,
            (p : Conn × Message).2 = ⟨"data", dt, d, now⟩ := by
          intro p hp
          rw [hb] at hp
          obtain ⟨pc, pm⟩ := p
          exact (broadcastLoop_sent_inv fails _ dt s.client_subscriptions
            s.active_connections pc pm hp).1
        have hlast : lastTimeOf (broadcast fails now dt d s).state ch =
            if dt = ch then now else lastTimeOf s ch := by
          rw [broadcast_state_lastTimeOf, if_neg hgate]
        have hIpos : 0 ≤ minIntervalOf ch := minIntervalOf_nonneg ch
        by_cases hch : dt = ch
        · subst hch
          rw [if_pos rfl] at hlast
          rw [hlast] at ih1
          have hstep : minIntervalOf dt ≤ now - lastTimeOf s dt := not_lt.mp hgate
          have hemits : emissionTimes dt (runBroadcasts fails ((now, dt, d) :: evs) s).2.2 =
              now :: emissionTimes dt
                (runBroadcasts fails evs (broadcast fails now dt d s).state).2.2 := by
            rw [hrun2, hemit, if_pos rfl, List.singleton_append, emissionTimes_cons,
              if_pos rfl]
          refine ⟨?_, ?_, ?_⟩
          · intro t ht
            rw [hemits] at ht
            rcases List.mem_cons.mp ht with h1 | h1
            · subst h1
              linarith
            · have := ih1 t h1
              linarith
          · rw [hemits, List.chain'_cons']
            refine ⟨?_, ih2⟩
            intro b hbh
            exact ih1 b (List.mem_of_mem_head? hbh)
          · intro p hp hdt
            rw [hemits]
            rw [hrun1] at hp
            rcases List.mem_append.mp hp with h1 | h1
            · rw [hsent p h1]
              exact List.mem_cons_self _ _
            · exact List.mem_cons_of_mem _ (ih3 p h1 hdt)
        · rw [if_neg hch] at hlast
          rw [hlast] at ih1
          have hemits : emissionTimes ch (runBroadcasts fails ((now, dt, d) :: evs) s).2.2 =
              emissionTimes ch
                (runBroadcasts fails evs (broadcast fails now dt d s).state).2.2 := by
            rw [hrun2, hemit, if_pos rfl, List.singleton_append, emissionTimes_cons,
              if_neg hch]
          refine ⟨?_, ?_, ?_⟩
          · intro t ht
            rw [hemits] at ht
            exact ih1 t ht
          · rw [hemits]
            exact ih2
          · intro p hp hdt
            rw [hemits]
            rw [hrun1] at hp
            rcases List.mem_append.mp hp with h1 | h1
            · exfalso
              apply hch
              have := hsent p h1
              rw [this] at hdt
              exact hdt
            · exact ih3 p h1 hdt

/-- A burst whose samples all arrive within the channel's minimum
interval of the recorded time is skipped entirely: state, deliveries and
emissions are all empty of effect. -/
theorem runBroadcasts_all_skip (fails : Conn → Bool) (ch : String) :
    ∀ (evs : List (ℚ × PValue)) (s : ManagerState),
      (∀ p ∈ evs, (p : ℚ × PValue).1 - lastTimeOf s ch < minIntervalOf ch) →
      runBroadcasts fails (evs.map (fun p => (p.1, ch, p.2))) s = (s, [], []) := by
  intro evs
  induction evs with
  | nil => intro s _; rfl
  | cons p rest ih =>
      intro s h
      obtain ⟨t, d⟩ := p
      have hstep : runBroadcasts fails (((t, d) :: rest).map (fun p => (p.1, ch, p.2))) s =
          ((runBroadcasts fails (rest.map (fun p => (p.1, ch, p.2)))
              (broadcast fails t ch d s).state).1,
           (broadcast fails t ch d s).sent ++
             (runBroadcasts fails (rest.map (fun p => (p.1, ch, p.2)))
               (broadcast fails t ch d s).state).2.1,
           (if (broadcast fails t ch d s).emitted then [(t, ch)] else []) ++
             (runBroadcasts fails (rest.map (fun p => (p.1, ch, p.2)))
               (broadcast fails t ch d s).state).2.2) := rfl
      have hb := broadcast_skip fails t ch d s (h (t, d) (List.mem_cons_self _ _))
      rw [hstep, hb]
      have hrest := ih s (fun q hq => h q (List.mem_cons_of_mem _ hq))
      dsimp only
      rw [hrest]
      simp

end WebBackend

/-- C1 counterexample: the very first pose sample arriving after
connection 2 subscribes to `pose` is not delivered to it. Connection 1
connects, a pose broadcast at t=1000 emits, connection 2 then connects
and subscribes to `pose`, and the next pose sample at t=1000+1/20 —
connection 2's first since subscribing — is dropped whole by the
per-channel rate gate (1/20 < 1/10): the broadcast delivers to nobody
and does not emit, refuting the per-connection first-emission
exemption. -/
theorem C1_counterexample :
    WebBackend.lookupA 2 (WebBackend.subscribe (fun _ => false)
        (WebBackend.connect (fun _ => false)
          (WebBackend.broadcast (fun _ => false) 1000 "pose" .vnull
            (WebBackend.connect (fun _ => false) ⟨[], [], []⟩ 1)).state 2)
        2 ["pose"]).client_subscriptions = some ["pose"] ∧
    (WebBackend.broadcast (fun _ => false) (1000 + 1/20) "pose" .vnull
      (WebBackend.subscribe (fun _ => false)
        (WebBackend.connect (fun _ => false)
          (WebBackend.broadcast (fun _ => false) 1000 "pose" .vnull
            (WebBackend.connect (fun _ => false) ⟨[], [], []⟩ 1)).state 2)
        2 ["pose"])).sent = [] ∧
    (WebBackend.broadcast (fun _ => false) (1000 + 1/20) "pose" .vnull
      (WebBackend.subscribe (fun _ => false)
        (WebBackend.connect (fun _ => false)
          (WebBackend.broadcast (fun _ => false) 1000 "pose" .vnull
            (WebBackend.connect (fun _ => false) ⟨[], [], []⟩ 1)).state 2)
        2 ["pose"])).emitted = false := by
  have hA : WebBackend.connect (fun _ => false) ⟨[], [], []⟩ 1 = ⟨[1], [(1, [])], []⟩ := rfl
  have hgateB : ¬ ((1000 : ℚ) - WebBackend.lastTimeOf ⟨[1], [(1, [])], []⟩ "pose" <
      WebBackend.minIntervalOf "pose") := by
    norm_num [WebBackend.lastTimeOf, WebBackend.minIntervalOf,
      WebBackend.min_broadcast_interval, WebBackend.lookupA]
  have hBstate : (WebBackend.broadcast (fun _ => false) 1000 "pose" .vnull
      ⟨[1], [(1, [])], []⟩).state = ⟨[1], [(1, [])], [("pose", 1000)]⟩ := by
    rw [WebBackend.broadcast_emit _ _ _ _ _ hgateB]
    rfl
  have hD : WebBackend.subscribe (fun _ => false) ⟨[1, 2], [(1, []), (2, [])], [("pose", 1000)]⟩
      2 ["pose"] = ⟨[1, 2], [(1, []), (2, ["pose"])], [("pose", 1000)]⟩ := rfl
  have hgateE : (1000 + 1/20 : ℚ) -
      WebBackend.lastTimeOf ⟨[1, 2], [(1, []), (2, ["pose"])], [("pose", 1000)]⟩ "pose" <
      WebBackend.minIntervalOf "pose" := by
    norm_num [WebBackend.lastTimeOf, WebBackend.minIntervalOf,
      WebBackend.min_broadcast_interval, WebBackend.lookupA]
  have hE := WebBackend.broadcast_skip (fun _ => false) (1000 + 1/20) "pose" .vnull
    ⟨[1, 2], [(1, []), (2, ["pose"])], [("pose", 1000)]⟩ hgateE
  refine ⟨?_, ?_, ?_⟩
  · rw [hA, hBstate]
    rfl
  · rw [hA, hBstate]
    show (WebBackend.broadcast (fun _ => false) (1000 + 1/20) "pose" .vnull
      (WebBackend.subscribe (fun _ => false) ⟨[1, 2], [(1, []), (2, [])], [("pose", 1000)]⟩
        2 ["pose"])).sent = []
    rw [hD, hE]
  · rw [hA, hBstate]
    show (WebBackend.broadcast (fun _ => false) (1000 + 1/20) "pose" .vnull
      (WebBackend.subscribe (fun _ => false) ⟨[1, 2], [(1, []), (2, [])], [("pose", 1000)]⟩
        2 ["pose"])).emitted = false
    rw [hD, hE]

/-- C1 amended: the rate-limit state consulted by `broadcast` is per
channel, so the spacing invariant holds globally — in any run,
consecutive emissions of a channel are at least the channel's minimum
interval apart, and every delivery of a channel's message to any
connection happens at one of the channel's emission times. There is no
per-connection exemption: a connection that subscribes mid-stream may
have its first sample dropped (see the counterexample); the only
unthrottled broadcast is one for which the channel has no sufficiently
recent recorded time. -/
theorem C1_rate_limit_amended (fails : WebBackend.Conn → Bool)
    (evs : List (ℚ × String × WebBackend.PValue)) (s : WebBackend.ManagerState)
    (ch : String) :
    List.Chain' (fun a b => a + WebBackend.minIntervalOf ch ≤ b)
      (WebBackend.emissionTimes ch (WebBackend.runBroadcasts fails evs s).2.2) ∧
    (∀ p ∈ (WebBackend.runBroadcasts fails evs s).2.1,
      (p : WebBackend.Conn × WebBackend.Message).2.data_type = ch →
        (p : WebBackend.Conn × WebBackend.Message).2.timestamp ∈
          WebBackend.emissionTimes ch (WebBackend.runBroadcasts fails evs s).2.2) :=
  ⟨(WebBackend.runBroadcasts_spaced fails ch evs s).2.1,
    (WebBackend.runBroadcasts_spaced fails ch evs s).2.2⟩

/-- C8: a burst on one channel whose first sample passes the rate gate
and whose remaining samples all arrive within the minimum interval of
the first produces exactly one emission — at the first sample's time —
and every message delivered during the burst carries that first
timestamp; the later samples are dropped without effect (nothing is
queued: the skipped broadcast returns leaving no trace). -/
theorem C8_burst_single_emission (fails : WebBackend.Conn → Bool)
    (s : WebBackend.ManagerState) (ch : String) (t1 : ℚ) (d1 : WebBackend.PValue)
    (rest : List (ℚ × WebBackend.PValue))
    (h1 : ¬ (t1 - WebBackend.lastTimeOf s ch < WebBackend.minIntervalOf ch))
    (h2 : ∀ p ∈ rest, (p : ℚ × WebBackend.PValue).1 - t1 < WebBackend.minIntervalOf ch) :
    WebBackend.emissionTimes ch (WebBackend.runBroadcasts fails
        ((t1, ch, d1) :: rest.map (fun p => (p.1, ch, p.2))) s).2.2 = [t1] ∧
    ∀ p ∈ (WebBackend.runBroadcasts fails
        ((t1, ch, d1) :: rest.map (fun p => (p.1, ch, p.2))) s).2.1,
      (p : WebBackend.Conn × WebBackend.Message).2.timestamp = t1 := by
  have hrun2 : (WebBackend.runBroadcasts fails
      ((t1, ch, d1) :: rest.map (fun p => (p.1, ch, p.2))) s).2.2 =
      (if (WebBackend.broadcast fails t1 ch d1 s).emitted then [(t1, ch)] else []) ++
        (WebBackend.runBroadcasts fails (rest.map (fun p => (p.1, ch, p.2)))
          (WebBackend.broadcast fails t1 ch d1 s).state).2.2 := rfl
  have hrun1 : (WebBackend.runBroadcasts fails
      ((t1, ch, d1) :: rest.map (fun p => (p.1, ch, p.2))) s).2.1 =
      (WebBackend.broadcast fails t1 ch d1 s).sent ++
        (WebBackend.runBroadcasts fails (rest.map (fun p => (p.1, ch, p.2)))
          (WebBackend.broadcast fails t1 ch d1 s).state).2.1 := rfl
  have hemit : (WebBackend.broadcast fails t1 ch d1 s).emitted = true := by
    rw [WebBackend.broadcast_emit fails t1 ch d1 s h1]
  have hlast : WebBackend.lastTimeOf (WebBackend.broadcast fails t1 ch d1 s).state ch = t1 := by
    rw [WebBackend.broadcast_state_lastTimeOf, if_neg h1, if_pos rfl]
  have hskip := WebBackend.runBroadcasts_all_skip fails ch rest
    (WebBackend.broadcast fails t1 ch d1 s).state
    (fun p hp => by rw [hlast]; exact h2 p hp)
  have hsent : ∀ p ∈ (WebBackend.broadcast fails t1 ch d1 s).sent,
      (p : WebBackend.Conn × WebBackend.Message).2 = ⟨"data", ch, d1, t1⟩ := by
    rw [WebBackend.broadcast_emit fails t1 ch d1 s h1]
    intro p hp
    obtain ⟨pc, pm⟩ := p
    exact (WebBackend.broadcastLoop_sent_inv fails _ ch s.client_subscriptions
      s.active_connections pc pm hp).1
  constructor
  · rw [hrun2, hemit, hskip]
    simp [WebBackend.emissionTimes_cons, WebBackend.emissionTimes]
  · intro p hp
    rw [hrun1, hskip] at hp
    simp only [List.append_nil] at hp
    rw [hsent p hp]

/-- Witness for C8: a two-sample pose burst at t=1000 and t=1000+1/20
against a fresh manager — one emission at 1000, all deliveries stamped
1000, the second sample dropped. -/
theorem C8_burst_single_emission_witness :
    (¬ ((1000 : ℚ) - WebBackend.lastTimeOf ⟨[1], [(1, [])], []⟩ "pose" <
        WebBackend.minIntervalOf "pose")) ∧
    (∀ p ∈ ([(1000 + 1/20, WebBackend.PValue.vnull)] : List (ℚ × WebBackend.PValue)),
      (p : ℚ × WebBackend.PValue).1 - 1000 < WebBackend.minIntervalOf "pose") ∧
    (WebBackend.emissionTimes "pose" (WebBackend.runBroadcasts (fun _ => false)
        ((1000, "pose", .vnull) ::
          ([(1000 + 1/20, WebBackend.PValue.vnull)]).map (fun p => (p.1, "pose", p.2)))
        ⟨[1], [(1, [])], []⟩).2.2 = [1000] ∧
      ∀ p ∈ (WebBackend.runBroadcasts (fun _ => false)
          ((1000, "pose", .vnull) ::
            ([(1000 + 1/20, WebBackend.PValue.vnull)]).map (fun p => (p.1, "pose", p.2)))
          ⟨[1], [(1, [])], []⟩).2.1,
        (p : WebBackend.Conn × WebBackend.Message).2.timestamp = 1000) :=
  ⟨by
    norm_num [WebBackend.lastTimeOf, WebBackend.minIntervalOf,
      WebBackend.min_broadcast_interval, WebBackend.lookupA],
  by
    intro p hp
    rw [List.mem_singleton] at hp
    subst hp
    norm_num [WebBackend.minIntervalOf, WebBackend.min_broadcast_interval, WebBackend.lookupA],
  C8_burst_single_emission (fun _ => false) ⟨[1], [(1, [])], []⟩ "pose" 1000 .vnull
    [(1000 + 1/20, .vnull)]
    (by
      norm_num [WebBackend.lastTimeOf, WebBackend.minIntervalOf,
        WebBackend.min_broadcast_interval, WebBackend.lookupA])
    (by
      intro p hp
      rw [List.mem_singleton] at hp
      subst hp
      norm_num [WebBackend.minIntervalOf, WebBackend.min_broadcast_interval,
        WebBackend.lookupA])⟩
